import Mathlib

/-!
Shallow embedding of the interpreter-rs register-machine interpreter.

The embedded core is the `simulator` module of the repository:
`src/simulator.rs`, `src/simulator/operation.rs`, `src/simulator/parser.rs`
and `src/simulator/stack.rs`.  Rust `i32` values are modelled as `Int`
together with an explicit two's-complement wrap `wrap32`; `usize` indices
are `Nat`; `HashMap<String, usize>` is modelled as an association list
whose `get` returns the most recently inserted binding for a key (which is
exactly the observable behaviour of `HashMap::insert`/`get`);
`Vec<Instructions>` is a `List`.  Functions taking `&mut Simulator` and
returning `Result<(), Error>` are modelled as functions from the state
producing an `OpOut`: `.ok s` for `Ok(())` with final state `s`, and
`.err e s` for an early `return Err(e)` leaving the state `s` as it was at
the return point.  Rust panics (`assert!`, `todo!()`, the missing `LABEL`
match arm) are modelled by an explicit `.panic` outcome, and
`std::process::exit(0)` inside the `EXIT` handler by `.exited`.
-/

namespace InterpreterRs

/-- Two's-complement wrap of an integer into the `i32` range
`[-2^31, 2^31)`. -/
def wrap32 (x : Int) : Int := (x + 2 ^ 31) % 2 ^ 32 - 2 ^ 31

/-- Rust `i32::wrapping_add`. -/
def wrappingAdd (x y : Int) : Int := wrap32 (x + y)

/-- Rust `i32::wrapping_sub`. -/
def wrappingSub (x y : Int) : Int := wrap32 (x - y)

/-- Rust `i32::wrapping_mul`. -/
def wrappingMul (x y : Int) : Int := wrap32 (x * y)

/-- Rust `i32::wrapping_div`: truncating division, wrapping on the single
overflow case `i32::MIN / -1` (Rust division truncates toward zero, which
is `Int.tdiv`). -/
def wrappingDiv (x y : Int) : Int := wrap32 (Int.tdiv x y)

/-- Rust `i32::wrapping_rem`: remainder with the sign of the dividend
(`Int.tmod`), wrapped into the `i32` range. -/
def wrappingRem (x y : Int) : Int := wrap32 (Int.tmod x y)

/-- `enum Instructions` from `src/simulator.rs` (register indices are
`usize`, immediates `i32`, label operands `String`). -/
inductive Instructions where
  | LI (a : Nat) (b : Int)
  | MOVE (a : Nat) (b : Nat)
  | ADD (a : Nat) (b : Nat) (c : Nat)
  | SUB (a : Nat) (b : Nat) (c : Nat)
  | MUL (a : Nat) (b : Nat) (c : Nat)
  | DIV (a : Nat) (b : Nat) (c : Nat)
  | REM (a : Nat) (b : Nat) (c : Nat)
  | PRINT (a : Nat)
  | EXIT
  | SKIP
  | LABEL
  | JUMP (a : String)
  | BEQ (a : Nat) (b : Nat) (c : String)
  | BNE (a : Nat) (b : Nat) (c : String)
  | BLT (a : Nat) (b : Nat) (c : String)
  | BLE (a : Nat) (b : Nat) (c : String)
  | BGT (a : Nat) (b : Nat) (c : String)
  | BGE (a : Nat) (b : Nat) (c : String)
deriving DecidableEq

/-- `enum Error` from `src/simulator.rs` (the handler file spells the same
type `SimulatorError`). -/
inductive Error where
  | OutOfRange
  | DivisionByZero
  | MainNotFound
  | UnknownLabel
  | InvalidInstruction
  | InvalidParameter
deriving DecidableEq

/-- `struct Simulator` from `src/simulator.rs`: `int_registers: [i32; 32]`
(a list of length 32 in every state built by `Simulator::new`),
`program_counter: usize`, `labels: HashMap<String, usize>`,
`instructions: Vec<Instructions>`. -/
structure Simulator where
  int_registers : List Int
  program_counter : Nat
  labels : List (String × Nat)
  instructions : List Instructions
deriving DecidableEq

deriving instance DecidableEq for Except

/-- `HashMap::get`: the most recent insertion for a key wins. -/
def hmGet : List (String × Nat) → String → Option Nat
  | [], _ => none
  | (k2, v) :: rest, k => if k = k2 then some v else hmGet rest k

/-- `HashMap::insert`: later insertions shadow earlier ones for `hmGet`. -/
def hmInsert (m : List (String × Nat)) (k : String) (v : Nat) :
    List (String × Nat) :=
  (k, v) :: m

/-- `Simulator::new()` = `Simulator::default()`: zeroed registers, counter
0, empty label table and instruction list. -/
def Simulator.new : Simulator :=
  { int_registers := List.replicate 32 0
    program_counter := 0
    labels := []
    instructions := [] }

/-- Read `sim.int_registers[i]`.  Every caller in the source indexes only
after checking `i < sim.int_registers.len()`, so the default is never
reached on the guarded paths. -/
def getReg (sim : Simulator) (i : Nat) : Int :=
  sim.int_registers.getD i 0

/-- Outcome of a handler on `&mut Simulator`: `ok` = `Ok(())`, `err e s` =
early `return Err(e)` with the state `s` at that point, `panic` = a Rust
panic, `exited` = `std::process::exit(0)`. -/
inductive OpOut where
  | ok (s : Simulator)
  | err (e : Error) (s : Simulator)
  | panic
  | exited
deriving DecidableEq

/-- `li_operation` from `src/simulator/operation.rs`. -/
def li_operation (sim : Simulator) (a : Nat) (b : Int) : OpOut :=
  if a ≥ sim.int_registers.length then
    .err .OutOfRange sim
  else
    .ok { sim with int_registers := sim.int_registers.set a b }

/-- `move_operation` from `src/simulator/operation.rs`. -/
def move_operation (sim : Simulator) (a : Nat) (b : Nat) : OpOut :=
  if a ≥ sim.int_registers.length ∨ b ≥ sim.int_registers.length then
    .err .OutOfRange sim
  else
    .ok { sim with int_registers := sim.int_registers.set a (getReg sim b) }

/-- `add_operation` from `src/simulator/operation.rs`. -/
def add_operation (sim : Simulator) (a : Nat) (b : Nat) (c : Nat) : OpOut :=
  if a ≥ sim.int_registers.length ∨ b ≥ sim.int_registers.length ∨
      c ≥ sim.int_registers.length then
    .err .OutOfRange sim
  else
    .ok { sim with
      int_registers :=
        sim.int_registers.set a (wrappingAdd (getReg sim b) (getReg sim c)) }

/-- `sub_operation` from `src/simulator/operation.rs`. -/
def sub_operation (sim : Simulator) (a : Nat) (b : Nat) (c : Nat) : OpOut :=
  if a ≥ sim.int_registers.length ∨ b ≥ sim.int_registers.length ∨
      c ≥ sim.int_registers.length then
    .err .OutOfRange sim
  else
    .ok { sim with
      int_registers :=
        sim.int_registers.set a (wrappingSub (getReg sim b) (getReg sim c)) }

/-- `mul_operation` from `src/simulator/operation.rs`. -/
def mul_operation (sim : Simulator) (a : Nat) (b : Nat) (c : Nat) : OpOut :=
  if a ≥ sim.int_registers.length ∨ b ≥ sim.int_registers.length ∨
      c ≥ sim.int_registers.length then
    .err .OutOfRange sim
  else
    .ok { sim with
      int_registers :=
        sim.int_registers.set a (wrappingMul (getReg sim b) (getReg sim c)) }

/-- `div_operation` from `src/simulator/operation.rs`: range check first,
then the divisor register value is compared with 0. -/
def div_operation (sim : Simulator) (a : Nat) (b : Nat) (c : Nat) : OpOut :=
  if a ≥ sim.int_registers.length ∨ b ≥ sim.int_registers.length ∨
      c ≥ sim.int_registers.length then
    .err .OutOfRange sim
  else if getReg sim c = 0 then
    .err .DivisionByZero sim
  else
    .ok { sim with
      int_registers :=
        sim.int_registers.set a (wrappingDiv (getReg sim b) (getReg sim c)) }

/-- `rem_operation` from `src/simulator/operation.rs`. -/
def rem_operation (sim : Simulator) (a : Nat) (b : Nat) (c : Nat) : OpOut :=
  if a ≥ sim.int_registers.length ∨ b ≥ sim.int_registers.length ∨
      c ≥ sim.int_registers.length then
    .err .OutOfRange sim
  else if getReg sim c = 0 then
    .err .DivisionByZero sim
  else
    .ok { sim with
      int_registers :=
        sim.int_registers.set a (wrappingRem (getReg sim b) (getReg sim c)) }

/-- `print_operation` from `src/simulator/operation.rs` (the `println!`
side effect is dropped; no state is mutated). -/
def print_operation (sim : Simulator) (a : Nat) : OpOut :=
  if a ≥ sim.int_registers.length then
    .err .OutOfRange sim
  else
    .ok sim

/-- `jump_operation` from `src/simulator/operation.rs`. -/
def jump_operation (sim : Simulator) (a : String) : OpOut :=
  match hmGet sim.labels a with
  | none => .err .UnknownLabel sim
  | some x => .ok { sim with program_counter := x }

/-- `beq_operation` from `src/simulator/operation.rs`: ranges first, then
the comparison; the label is looked up only when the branch is taken. -/
def beq_operation (sim : Simulator) (a : Nat) (b : Nat) (c : String) : OpOut :=
  if a ≥ sim.int_registers.length ∨ b ≥ sim.int_registers.length then
    .err .OutOfRange sim
  else if getReg sim a = getReg sim b then
    jump_operation sim c
  else
    .ok sim

/-- `bne_operation` from `src/simulator/operation.rs`. -/
def bne_operation (sim : Simulator) (a : Nat) (b : Nat) (c : String) : OpOut :=
  if a ≥ sim.int_registers.length ∨ b ≥ sim.int_registers.length then
    .err .OutOfRange sim
  else if getReg sim a ≠ getReg sim b then
    jump_operation sim c
  else
    .ok sim

/-- `blt_operation` from `src/simulator/operation.rs`. -/
def blt_operation (sim : Simulator) (a : Nat) (b : Nat) (c : String) : OpOut :=
  if a ≥ sim.int_registers.length ∨ b ≥ sim.int_registers.length then
    .err .OutOfRange sim
  else if getReg sim a < getReg sim b then
    jump_operation sim c
  else
    .ok sim

/-- `ble_operation` from `src/simulator/operation.rs`. -/
def ble_operation (sim : Simulator) (a : Nat) (b : Nat) (c : String) : OpOut :=
  if a ≥ sim.int_registers.length ∨ b ≥ sim.int_registers.length then
    .err .OutOfRange sim
  else if getReg sim a ≤ getReg sim b then
    jump_operation sim c
  else
    .ok sim

/-- `bgt_operation` from `src/simulator/operation.rs`. -/
def bgt_operation (sim : Simulator) (a : Nat) (b : Nat) (c : String) : OpOut :=
  if a ≥ sim.int_registers.length ∨ b ≥ sim.int_registers.length then
    .err .OutOfRange sim
  else if getReg sim a > getReg sim b then
    jump_operation sim c
  else
    .ok sim

/-- `bge_operation` from `src/simulator/operation.rs`. -/
def bge_operation (sim : Simulator) (a : Nat) (b : Nat) (c : String) : OpOut :=
  if a ≥ sim.int_registers.length ∨ b ≥ sim.int_registers.length then
    .err .OutOfRange sim
  else if getReg sim a ≥ getReg sim b then
    jump_operation sim c
  else
    .ok sim

/-- `operate` from `src/simulator/operation.rs`: asserts the counter is in
bounds (an out-of-bounds counter panics), fetches the instruction at the
counter and dispatches.  The source `match` has no `LABEL` arm, so
executing a `LABEL` instruction is modelled as a panic; the `EXIT` arm
calls `std::process::exit(0)`. -/
def operate (sim : Simulator) : OpOut :=
  match sim.instructions[sim.program_counter]? with
  | none => .panic
  | some i =>
    match i with
    | .LI a b => li_operation sim a b
    | .MOVE a b => move_operation sim a b
    | .ADD a b c => add_operation sim a b c
    | .SUB a b c => sub_operation sim a b c
    | .MUL a b c => mul_operation sim a b c
    | .DIV a b c => div_operation sim a b c
    | .REM a b c => rem_operation sim a b c
    | .EXIT => .exited
    | .SKIP => .ok sim
    | .LABEL => .panic
    | .JUMP a => jump_operation sim a
    | .PRINT a => print_operation sim a
    | .BEQ a b c => beq_operation sim a b c
    | .BNE a b c => bne_operation sim a b c
    | .BLT a b c => blt_operation sim a b c
    | .BLE a b c => ble_operation sim a b c
    | .BGT a b c => bgt_operation sim a b c
    | .BGE a b c => bge_operation sim a b c

/-- `Simulator::step` from `src/simulator.rs`: run `operate`, and on
success unconditionally increment the program counter (also after a taken
jump, whose handler already set the counter). -/
def step (sim : Simulator) : OpOut :=
  match operate sim with
  | .ok s => .ok { s with program_counter := s.program_counter + 1 }
  | r => r

/-- Result of `Simulator::run`: `ok` would be a normal `Ok(())` return
(the source never produces it), `err e` a propagated error, `panic` a
panic (in particular the `todo!()` after the loop), `exited` the process
exit performed by `EXIT`, and `outOfFuel` marks that the fuel bound was
reached before the run settled. -/
inductive RunResult where
  | ok
  | err (e : Error)
  | panic
  | exited
  | outOfFuel
deriving DecidableEq

/-- The `while` loop of `Simulator::run`, fuelled: while the counter is
below the program length, `step`; when the loop exits (counter ran off the
end) the source executes `todo!()`, which panics. -/
def runLoop : Nat → Simulator → RunResult
  | 0, _ => .outOfFuel
  | n + 1, sim =>
    if sim.program_counter < sim.instructions.length then
      match step sim with
      | .ok s => runLoop n s
      | .err e _ => .err e
      | .panic => .panic
      | .exited => .exited
    else
      .panic

/-- `Simulator::run` from `src/simulator.rs`: looks up the entry label
`"@MAIN"` (absence is `MainNotFound`), sets the counter to its address and
enters the loop. -/
def run (sim : Simulator) (fuel : Nat) : RunResult :=
  match hmGet sim.labels "@MAIN" with
  | none => .err .MainNotFound
  | some x => runLoop fuel { sim with program_counter := x }

/-! ### Line parsing (`src/simulator/parser.rs`)

The source matches lines against anchored regular expressions.  Every
character class used (`\s`, `\d`, `[A-Z]`) is pairwise disjoint from the
literal characters that follow it in each pattern, so greedy matching is
deterministic and each regex is modelled by a direct scan over the line's
character list.  `\s`/`\d` are modelled on their ASCII part, which covers
the language's declared ASCII text format. -/

/-- ASCII part of the regex class `\s`. -/
def isWs (c : Char) : Bool :=
  c = ' ' ∨ c = '\t' ∨ c = '\n' ∨ c = '\r' ∨ c = '\x0b' ∨ c = '\x0c'

/-- Regex class `\d` (ASCII digits). -/
def isDigitC (c : Char) : Bool := '0' ≤ c ∧ c ≤ '9'

/-- Regex class `[A-Z]`. -/
def isUpperC (c : Char) : Bool := 'A' ≤ c ∧ c ≤ 'Z'

/-- Numeric value of a digit string, mirroring `str::parse::<usize>` on a
`\d+` capture (the source `expect`s success; overflow of `usize` is not
modelled, no claim depends on it). -/
def natOfDigits (ds : List Char) : Nat :=
  ds.foldl (fun acc c => 10 * acc + (c.toNat - 48)) 0

/-- Match `\s+` at the head and drop it. -/
def expectWs1 : List Char → Option (List Char)
  | [] => none
  | c :: rest => if isWs c then some (rest.dropWhile isWs) else none

/-- Match one literal character at the head. -/
def expectChar (c : Char) : List Char → Option (List Char)
  | [] => none
  | c2 :: rest => if c2 = c then some rest else none

/-- Match `(\d+)` at the head, returning its parsed value. -/
def takeDigits1 (cs : List Char) : Option (Nat × List Char) :=
  let ds := cs.takeWhile isDigitC
  if ds.isEmpty then none
  else some (natOfDigits ds, cs.dropWhile isDigitC)

/-- Match `(-?\d+)` at the head, returning its parsed `i32` value
(mirroring `str::parse::<i32>` on the capture; the source `expect`s
success, so an immediate outside `i32` panics there — not modelled, no
claim depends on it). -/
def takeInt (cs : List Char) : Option (Int × List Char) :=
  match cs with
  | '-' :: rest => (takeDigits1 rest).map (fun p => (-(p.1 : Int), p.2))
  | _ => (takeDigits1 cs).map (fun p => ((p.1 : Int), p.2))

/-- Match `(@[A-Z]+)` at the head; the capture includes the `@`. -/
def takeLabel (cs : List Char) : Option (String × List Char) :=
  match cs with
  | '@' :: rest =>
    let ups := rest.takeWhile isUpperC
    if ups.isEmpty then none
    else some (String.mk ('@' :: ups), rest.dropWhile isUpperC)
  | _ => none

/-- Match `\s*$`. -/
def expectEnd (cs : List Char) : Bool := cs.all isWs

/-- `AVOID_PARSER` = `^\s*(?:\/\/.*)?\s*$`: a line of only whitespace, or
whitespace followed by `//` and arbitrary text. -/
def isAvoid (cs : List Char) : Bool :=
  match cs.dropWhile isWs with
  | [] => true
  | '/' :: '/' :: _ => true
  | _ => false

/-- `LABEL_PARSER` of `src/simulator/parser.rs` = `^\s*@([A-Z]+)\s*$`. -/
def labelMatch (cs : List Char) : Bool :=
  match cs.dropWhile isWs with
  | '@' :: rest =>
    !(rest.takeWhile isUpperC).isEmpty && (rest.dropWhile isUpperC).all isWs
  | _ => false

/-- `INSTRUCTION_PARSER` = `^\s*([A-Z]+)(?:\s+.*)*$`: the leading
uppercase word is captured; after it the line must end or continue with
whitespace. -/
def instructionHead (cs : List Char) : Option String :=
  let r := cs.dropWhile isWs
  let ups := r.takeWhile isUpperC
  match r.dropWhile isUpperC with
  | [] => if ups.isEmpty then none else some (String.mk ups)
  | c :: _ => if ups.isEmpty ∨ ¬ isWs c then none else some (String.mk ups)

/-- `LI_PARSER` = `^\s*(?:LI)\s+\$(\d+)\s+(-?\d+)\s*$`. -/
def matchLi (cs : List Char) : Option (Nat × Int) := do
  let r0 := cs.dropWhile isWs
  let r1 ← expectChar 'L' r0
  let r2 ← expectChar 'I' r1
  let r3 ← expectWs1 r2
  let r4 ← expectChar '$' r3
  let (a, r5) ← takeDigits1 r4
  let r6 ← expectWs1 r5
  let (b, r7) ← takeInt r6
  if expectEnd r7 then some (a, b) else none

/-- `MOVE_PARSER` = `^\s*(?:MOVE)\s+\$(\d+)\s+\$(\d+)\s*$`. -/
def matchMove (cs : List Char) : Option (Nat × Nat) := do
  let r0 := cs.dropWhile isWs
  let r1 ← expectChar 'M' r0
  let r2 ← expectChar 'O' r1
  let r3 ← expectChar 'V' r2
  let r4 ← expectChar 'E' r3
  let r5 ← expectWs1 r4
  let r6 ← expectChar '$' r5
  let (a, r7) ← takeDigits1 r6
  let r8 ← expectWs1 r7
  let r9 ← expectChar '$' r8
  let (b, r10) ← takeDigits1 r9
  if expectEnd r10 then some (a, b) else none

/-- The alternation `(?:ADD|SUB|MUL|DIV|REM)` of `ARITHMETIC_PARSER`. -/
def expectArithMnemonic : List Char → Option (List Char)
  | 'A' :: 'D' :: 'D' :: r => some r
  | 'S' :: 'U' :: 'B' :: r => some r
  | 'M' :: 'U' :: 'L' :: r => some r
  | 'D' :: 'I' :: 'V' :: r => some r
  | 'R' :: 'E' :: 'M' :: r => some r
  | _ => none

/-- `ARITHMETIC_PARSER` =
`^\s*(?:ADD|SUB|MUL|DIV|REM)\s+\$(\d+)\s+\$(\d+)\s+\$(\d+)\s*$`. -/
def matchArithmetic (cs : List Char) : Option (Nat × Nat × Nat) := do
  let r0 := cs.dropWhile isWs
  let r1 ← expectArithMnemonic r0
  let r2 ← expectWs1 r1
  let r3 ← expectChar '$' r2
  let (a, r4) ← takeDigits1 r3
  let r5 ← expectWs1 r4
  let r6 ← expectChar '$' r5
  let (b, r7) ← takeDigits1 r6
  let r8 ← expectWs1 r7
  let r9 ← expectChar '$' r8
  let (c, r10) ← takeDigits1 r9
  if expectEnd r10 then some (a, b, c) else none

/-- `PRINT_PARSER` = `^\s*(?:PRINT)\s+\$(\d+)\s*$`. -/
def matchPrint (cs : List Char) : Option Nat := do
  let r0 := cs.dropWhile isWs
  let r1 ← expectChar 'P' r0
  let r2 ← expectChar 'R' r1
  let r3 ← expectChar 'I' r2
  let r4 ← expectChar 'N' r3
  let r5 ← expectChar 'T' r4
  let r6 ← expectWs1 r5
  let r7 ← expectChar '$' r6
  let (a, r8) ← takeDigits1 r7
  if expectEnd r8 then some a else none

/-- `JUMP_PARSER` = `^\s*(?:JUMP)\s+(@[A-Z]+)\s*$`. -/
def matchJump (cs : List Char) : Option String := do
  let r0 := cs.dropWhile isWs
  let r1 ← expectChar 'J' r0
  let r2 ← expectChar 'U' r1
  let r3 ← expectChar 'M' r2
  let r4 ← expectChar 'P' r3
  let r5 ← expectWs1 r4
  let (l, r6) ← takeLabel r5
  if expectEnd r6 then some l else none

/-- The alternation `(?:BEQ|BNE|BLT|BLE|BGT|BGE)` of `COND_JUMP_PARSER`. -/
def expectCondMnemonic : List Char → Option (List Char)
  | 'B' :: 'E' :: 'Q' :: r => some r
  | 'B' :: 'N' :: 'E' :: r => some r
  | 'B' :: 'L' :: 'T' :: r => some r
  | 'B' :: 'L' :: 'E' :: r => some r
  | 'B' :: 'G' :: 'T' :: r => some r
  | 'B' :: 'G' :: 'E' :: r => some r
  | _ => none

/-- `COND_JUMP_PARSER` =
`^\s*(?:BEQ|BNE|BLT|BLE|BGT|BGE)\s+\$(\d+)\s+\$(\d+)\s+(@[A-Z]+)\s*$`. -/
def matchCondJump (cs : List Char) : Option (Nat × Nat × String) := do
  let r0 := cs.dropWhile isWs
  let r1 ← expectCondMnemonic r0
  let r2 ← expectWs1 r1
  let r3 ← expectChar '$' r2
  let (a, r4) ← takeDigits1 r3
  let r5 ← expectWs1 r4
  let r6 ← expectChar '$' r5
  let (b, r7) ← takeDigits1 r6
  let r8 ← expectWs1 r7
  let (l, r9) ← takeLabel r8
  if expectEnd r9 then some (a, b, l) else none

/-- `parse_li` from `src/simulator/parser.rs`. -/
def parse_li (line : String) : Except Error (Nat × Int) :=
  match matchLi line.data with
  | none => .error .InvalidParameter
  | some p => .ok p

/-- `parse_move` from `src/simulator/parser.rs`. -/
def parse_move (line : String) : Except Error (Nat × Nat) :=
  match matchMove line.data with
  | none => .error .InvalidParameter
  | some p => .ok p

/-- `parse_arithmetic` from `src/simulator/parser.rs`. -/
def parse_arithmetic (line : String) : Except Error (Nat × Nat × Nat) :=
  match matchArithmetic line.data with
  | none => .error .InvalidParameter
  | some p => .ok p

/-- `parse_print` from `src/simulator/parser.rs`. -/
def parse_print (line : String) : Except Error Nat :=
  match matchPrint line.data with
  | none => .error .InvalidParameter
  | some p => .ok p

/-- `parse_jump` from `src/simulator/parser.rs`. -/
def parse_jump (line : String) : Except Error String :=
  match matchJump line.data with
  | none => .error .InvalidParameter
  | some p => .ok p

/-- `parser_cond_jump` from `src/simulator/parser.rs`. -/
def parser_cond_jump (line : String) : Except Error (Nat × Nat × String) :=
  match matchCondJump line.data with
  | none => .error .InvalidParameter
  | some p => .ok p

/-- `parse_instruction` from `src/simulator/parser.rs`: extract the
mnemonic with `INSTRUCTION_PARSER` (failure is `InvalidInstruction`),
then dispatch on it; an uppercase word outside the mnemonic set is
`InvalidInstruction`. -/
def parse_instruction (line : String) : Except Error Instructions :=
  match instructionHead line.data with
  | none => .error .InvalidInstruction
  | some m =>
    if m = "LI" then (parse_li line).map (fun p => .LI p.1 p.2)
    else if m = "MOVE" then (parse_move line).map (fun p => .MOVE p.1 p.2)
    else if m = "ADD" then
      (parse_arithmetic line).map (fun p => .ADD p.1 p.2.1 p.2.2)
    else if m = "SUB" then
      (parse_arithmetic line).map (fun p => .SUB p.1 p.2.1 p.2.2)
    else if m = "MUL" then
      (parse_arithmetic line).map (fun p => .MUL p.1 p.2.1 p.2.2)
    else if m = "DIV" then
      (parse_arithmetic line).map (fun p => .DIV p.1 p.2.1 p.2.2)
    else if m = "REM" then
      (parse_arithmetic line).map (fun p => .REM p.1 p.2.1 p.2.2)
    else if m = "PRINT" then (parse_print line).map (fun p => .PRINT p)
    else if m = "JUMP" then (parse_jump line).map (fun p => .JUMP p)
    else if m = "BEQ" then
      (parser_cond_jump line).map (fun p => .BEQ p.1 p.2.1 p.2.2)
    else if m = "BNE" then
      (parser_cond_jump line).map (fun p => .BNE p.1 p.2.1 p.2.2)
    else if m = "BLT" then
      (parser_cond_jump line).map (fun p => .BLT p.1 p.2.1 p.2.2)
    else if m = "BLE" then
      (parser_cond_jump line).map (fun p => .BLE p.1 p.2.1 p.2.2)
    else if m = "BGT" then
      (parser_cond_jump line).map (fun p => .BGT p.1 p.2.1 p.2.2)
    else if m = "BGE" then
      (parser_cond_jump line).map (fun p => .BGE p.1 p.2.1 p.2.2)
    else if m = "SKIP" then .ok .SKIP
    else if m = "EXIT" then .ok .EXIT
    else .error .InvalidInstruction

/-- `preprocess_lines` from `src/simulator/parser.rs`: drop every comment
or blank line. -/
def preprocess_lines (lines : List String) : List String :=
  lines.filter (fun l => !isAvoid l.data)

/-- The loop of `process_lines`, with the running `enumerate` index made
explicit.  A label-declaration line pushes a `LABEL` placeholder and
inserts the *whole line text* with the line's index into the label table;
any other line is parsed and its instruction pushed; the first parse
error is returned at once, leaving the state already mutated by the
preceding lines (the Rust `&mut Simulator` keeps them). -/
def processLinesAux : Nat → List String → Simulator → Option Error × Simulator
  | _, [], sim => (none, sim)
  | idx, l :: rest, sim =>
    if labelMatch l.data then
      processLinesAux (idx + 1) rest
        { sim with
          instructions := sim.instructions ++ [.LABEL]
          labels := hmInsert sim.labels l idx }
    else
      match parse_instruction l with
      | .error e => (some e, sim)
      | .ok i =>
        processLinesAux (idx + 1) rest
          { sim with instructions := sim.instructions ++ [i] }

/-- `process_lines` from `src/simulator/parser.rs`. -/
def process_lines (lines : List String) (sim : Simulator) :
    Option Error × Simulator :=
  processLinesAux 0 lines sim

/-- `Simulator::load` from `src/simulator.rs` (the progress prints are
dropped). -/
def load (sim : Simulator) (raw_lines : List String) :
    Option Error × Simulator :=
  process_lines (preprocess_lines raw_lines) sim

/-- `Stack` from `src/simulator/stack.rs`, a `LinkedList` used at its
front only. -/
structure Stack (T : Type) where
  list : List T
deriving DecidableEq

/-- `Stack::new`. -/
def Stack.new {T : Type} : Stack T := ⟨[]⟩

/-- `Stack::push` = `LinkedList::push_front`. -/
def Stack.push {T : Type} (s : Stack T) (v : T) : Stack T :=
  ⟨v :: s.list⟩

/-- `Stack::pop` = `LinkedList::pop_front`, returning the popped value and
the stack afterwards. -/
def Stack.pop {T : Type} (s : Stack T) : Option T × Stack T :=
  match s.list with
  | [] => (none, s)
  | h :: t => (some h, ⟨t⟩)

/-! ### Helper lemmas -/

theorem getD_set_self (l : List Int) (n : Nat) (v : Int) (h : n < l.length) :
    (l.set n v).getD n 0 = v := by
  induction l generalizing n with
  | nil => simp at h
  | cons hd tl ih =>
    cases n with
    | zero => simp
    | succ m =>
      simp only [List.set, List.getD_cons_succ]
      exact ih m (by simpa using h)

theorem wrap32_bounds (z : Int) : -2 ^ 31 ≤ wrap32 z ∧ wrap32 z < 2 ^ 31 := by
  unfold wrap32
  have h1 := Int.emod_nonneg (z + 2 ^ 31) (by norm_num : (2 : Int) ^ 32 ≠ 0)
  have h2 := Int.emod_lt_of_pos (z + 2 ^ 31) (by norm_num : (0 : Int) < 2 ^ 32)
  constructor <;> omega

theorem wrap32_emod (z : Int) : wrap32 z % 2 ^ 32 = z % 2 ^ 32 := by
  have h : wrap32 z = z + 2 ^ 32 * (-((z + 2 ^ 31) / 2 ^ 32)) := by
    unfold wrap32
    rw [Int.emod_def]
    ring
  rw [h, Int.add_mul_emod_self_left]

theorem processLinesAux_append (i : Nat) (xs ys : List String) (s : Simulator) :
    processLinesAux i (xs ++ ys) s =
      match processLinesAux i xs s with
      | (none, s2) => processLinesAux (i + xs.length) ys s2
      | (some e, s2) => (some e, s2) := by
  induction xs generalizing i s with
  | nil => simp [processLinesAux]
  | cons l rest ih =>
    have hidx : i + 1 + rest.length = i + (l :: rest).length := by
      simp; omega
    cases hl : labelMatch l.data with
    | true =>
      simp only [List.cons_append, processLinesAux, hl, if_true]
      rw [show rest.append ys = rest ++ ys from rfl, ih, hidx]
    | false =>
      cases hp : parse_instruction l with
      | error e =>
        simp [List.cons_append, processLinesAux, hl, hp]
      | ok ins =>
        simp only [List.cons_append, processLinesAux, hl, hp,
          Bool.false_eq_true, if_false]
        rw [show rest.append ys = rest ++ ys from rfl, ih, hidx]

theorem processLinesAux_ok_length (i : Nat) (xs : List String) (s : Simulator)
    (s2 : Simulator) (h : processLinesAux i xs s = (none, s2)) :
    s2.instructions.length = s.instructions.length + xs.length := by
  induction xs generalizing i s with
  | nil => simp [processLinesAux] at h; simp [h]
  | cons l rest ih =>
    simp only [processLinesAux] at h
    by_cases hl : labelMatch l.data
    · simp only [hl, if_true] at h
      have := ih (i + 1) _ h
      simp at this
      simp [this]; omega
    · simp only [hl, if_false] at h
      cases hp : parse_instruction l with
      | error e => rw [hp] at h; simp at h
      | ok ins =>
        rw [hp] at h
        have := ih (i + 1) _ h
        simp at this
        simp [this]; omega

theorem processLinesAux_labels_preserve (i : Nat) (xs : List String)
    (s : Simulator) (k : String) (hk : k ∉ xs) :
    hmGet ((processLinesAux i xs s).2).labels k = hmGet s.labels k := by
  induction xs generalizing i s with
  | nil => simp [processLinesAux]
  | cons l rest ih =>
    have hkl : k ≠ l := fun h => hk (h ▸ List.mem_cons_self l rest)
    have hkrest : k ∉ rest := fun h => hk (List.mem_cons_of_mem l h)
    cases hl : labelMatch l.data with
    | true =>
      simp only [processLinesAux, hl, if_true]
      rw [ih _ _ hkrest]
      simp [hmInsert, hmGet, hkl]
    | false =>
      cases hp : parse_instruction l with
      | error e =>
        simp [processLinesAux, hl, hp]
      | ok ins =>
        simp only [processLinesAux, hl, hp, Bool.false_eq_true, if_false]
        exact ih _ _ hkrest

theorem getReg_set_self (sim : Simulator) (a : Nat) (v : Int)
    (h : a < sim.int_registers.length) :
    getReg { sim with int_registers := sim.int_registers.set a v } a = v := by
  show (sim.int_registers.set a v).getD a 0 = v
  exact getD_set_self _ _ _ h

/-! ### Claim theorems -/

/-- C1: for every machine state whose register indices `a`, `b`, `c` are in
range, `DIV` and `REM` with divisor register value 0 return the
`DivisionByZero` error with the state untouched (no panic, no undefined
result), and with a nonzero divisor value they succeed (no
`DivisionByZero`), storing the wrapped quotient/remainder. -/
theorem div_rem_zero_divisor_errors (sim : Simulator) (a b c : Nat)
    (ha : a < sim.int_registers.length) (hb : b < sim.int_registers.length)
    (hc : c < sim.int_registers.length) :
    (getReg sim c = 0 →
      div_operation sim a b c = OpOut.err Error.DivisionByZero sim ∧
      rem_operation sim a b c = OpOut.err Error.DivisionByZero sim) ∧
    (getReg sim c ≠ 0 →
      div_operation sim a b c =
        OpOut.ok { sim with int_registers :=
          sim.int_registers.set a (wrappingDiv (getReg sim b) (getReg sim c)) } ∧
      rem_operation sim a b c =
        OpOut.ok { sim with int_registers :=
          sim.int_registers.set a (wrappingRem (getReg sim b) (getReg sim c)) }) := by
  unfold div_operation rem_operation
  have hcond : ¬(a ≥ sim.int_registers.length ∨ b ≥ sim.int_registers.length ∨
      c ≥ sim.int_registers.length) := by omega
  rw [if_neg hcond, if_neg hcond]
  constructor
  · intro h0
    rw [if_pos h0, if_pos h0]
    exact ⟨rfl, rfl⟩
  · intro h0
    rw [if_neg h0, if_neg h0]
    exact ⟨rfl, rfl⟩

/-- C1 witness: in the freshly created machine every register holds 0, so
`DIV $1 $2 $3` and `REM $1 $2 $3` fail with `DivisionByZero`. -/
theorem div_rem_zero_divisor_errors_witness :
    div_operation Simulator.new 1 2 3 =
      OpOut.err Error.DivisionByZero Simulator.new ∧
    rem_operation Simulator.new 1 2 3 =
      OpOut.err Error.DivisionByZero Simulator.new :=
  (div_rem_zero_divisor_errors Simulator.new 1 2 3 (by decide) (by decide)
    (by decide)).1 (by decide)

/-- C2 counterexample: `LI $0 5` on the fresh machine stores 5 into
register 0, and a subsequent read of register 0 yields 5, not 0 — the
write is not discarded, so register 0 is not hard-wired to 0. -/
theorem reg0_write_retained :
    li_operation Simulator.new 0 5 =
      OpOut.ok { Simulator.new with
        int_registers := (List.replicate 32 (0 : Int)).set 0 5 } ∧
    getReg { Simulator.new with
        int_registers := (List.replicate 32 (0 : Int)).set 0 5 } 0 = 5 ∧
    (5 : Int) ≠ 0 := by decide

/-- C2 amended: register 0 is an ordinary register — `LI` stores its
immediate into any in-range destination register, register 0 included, and
a subsequent read of that register returns the stored value. -/
theorem li_stores_to_every_register (sim : Simulator) (a : Nat) (b : Int)
    (h : a < sim.int_registers.length) :
    li_operation sim a b =
      OpOut.ok { sim with int_registers := sim.int_registers.set a b } ∧
    getReg { sim with int_registers := sim.int_registers.set a b } a = b := by
  constructor
  · unfold li_operation
    rw [if_neg (by omega)]
  · exact getReg_set_self sim a b h

/-- C2 amended witness: writing 7 to register 0 of the fresh machine and
reading register 0 back gives 7. -/
theorem li_stores_to_every_register_witness :
    li_operation Simulator.new 0 7 =
      OpOut.ok { Simulator.new with
        int_registers := Simulator.new.int_registers.set 0 7 } ∧
    getReg { Simulator.new with
        int_registers := Simulator.new.int_registers.set 0 7 } 0 = 7 :=
  li_stores_to_every_register Simulator.new 0 7 (by decide)

/-- C6: with in-range register indices, `ADD`, `SUB` and `MUL` always
succeed (overflow never raises an error) and store in the destination
register exactly the two's-complement wraparound of the mathematical sum,
difference and product: the stored value is congruent to it modulo `2^32`
and lies in the `i32` range `[-2^31, 2^31)`, which determines it
uniquely. -/
theorem arithmetic_wraps (sim : Simulator) (a b c : Nat)
    (ha : a < sim.int_registers.length) (hb : b < sim.int_registers.length)
    (hc : c < sim.int_registers.length) :
    (∃ s2, add_operation sim a b c = OpOut.ok s2 ∧
      getReg s2 a % 2 ^ 32 = (getReg sim b + getReg sim c) % 2 ^ 32 ∧
      -2 ^ 31 ≤ getReg s2 a ∧ getReg s2 a < 2 ^ 31) ∧
    (∃ s2, sub_operation sim a b c = OpOut.ok s2 ∧
      getReg s2 a % 2 ^ 32 = (getReg sim b - getReg sim c) % 2 ^ 32 ∧
      -2 ^ 31 ≤ getReg s2 a ∧ getReg s2 a < 2 ^ 31) ∧
    (∃ s2, mul_operation sim a b c = OpOut.ok s2 ∧
      getReg s2 a % 2 ^ 32 = (getReg sim b * getReg sim c) % 2 ^ 32 ∧
      -2 ^ 31 ≤ getReg s2 a ∧ getReg s2 a < 2 ^ 31) := by
  have hcond : ¬(a ≥ sim.int_registers.length ∨ b ≥ sim.int_registers.length ∨
      c ≥ sim.int_registers.length) := by omega
  refine ⟨⟨{ sim with int_registers :=
      sim.int_registers.set a (wrappingAdd (getReg sim b) (getReg sim c)) },
      ?_, ?_, ?_, ?_⟩,
    ⟨{ sim with int_registers :=
      sim.int_registers.set a (wrappingSub (getReg sim b) (getReg sim c)) },
      ?_, ?_, ?_, ?_⟩,
    ⟨{ sim with int_registers :=
      sim.int_registers.set a (wrappingMul (getReg sim b) (getReg sim c)) },
      ?_, ?_, ?_, ?_⟩⟩
  · unfold add_operation
    rw [if_neg hcond]
  · rw [getReg_set_self sim a _ ha]
    exact wrap32_emod _
  · rw [getReg_set_self sim a _ ha]
    exact (wrap32_bounds _).1
  · rw [getReg_set_self sim a _ ha]
    exact (wrap32_bounds _).2
  · unfold sub_operation
    rw [if_neg hcond]
  · rw [getReg_set_self sim a _ ha]
    exact wrap32_emod _
  · rw [getReg_set_self sim a _ ha]
    exact (wrap32_bounds _).1
  · rw [getReg_set_self sim a _ ha]
    exact (wrap32_bounds _).2
  · unfold mul_operation
    rw [if_neg hcond]
  · rw [getReg_set_self sim a _ ha]
    exact wrap32_emod _
  · rw [getReg_set_self sim a _ ha]
    exact (wrap32_bounds _).1
  · rw [getReg_set_self sim a _ ha]
    exact (wrap32_bounds _).2

/-- C6 witness: the wrapping-arithmetic theorem instantiated on the fresh
machine at registers `$1 := $2 op $3`. -/
theorem arithmetic_wraps_witness :
    (∃ s2, add_operation Simulator.new 1 2 3 = OpOut.ok s2 ∧
      getReg s2 1 % 2 ^ 32 =
        (getReg Simulator.new 2 + getReg Simulator.new 3) % 2 ^ 32 ∧
      -2 ^ 31 ≤ getReg s2 1 ∧ getReg s2 1 < 2 ^ 31) ∧
    (∃ s2, sub_operation Simulator.new 1 2 3 = OpOut.ok s2 ∧
      getReg s2 1 % 2 ^ 32 =
        (getReg Simulator.new 2 - getReg Simulator.new 3) % 2 ^ 32 ∧
      -2 ^ 31 ≤ getReg s2 1 ∧ getReg s2 1 < 2 ^ 31) ∧
    (∃ s2, mul_operation Simulator.new 1 2 3 = OpOut.ok s2 ∧
      getReg s2 1 % 2 ^ 32 =
        (getReg Simulator.new 2 * getReg Simulator.new 3) % 2 ^ 32 ∧
      -2 ^ 31 ≤ getReg s2 1 ∧ getReg s2 1 < 2 ^ 31) :=
  arithmetic_wraps Simulator.new 1 2 3 (by decide) (by decide) (by decide)

/-- A loaded machine: entry label `"@MAIN"` at address 0 and a single
`SKIP` instruction, so the run reaches the end of the program with no
error and no `EXIT`. -/
def simC3 : Simulator :=
  { int_registers := List.replicate 32 0
    program_counter := 0
    labels := [("@MAIN", 0)]
    instructions := [Instructions.SKIP] }

/-- C3: a run that reaches the end of the program without an error or
`EXIT` does not return success — the `while` loop of `Simulator::run`
exits and falls into `todo!()`, which panics. -/
theorem run_off_end_panics : run simC3 2 = RunResult.panic := by decide

/-- A machine about to execute `JUMP "@A"` (at address 1) whose label
table binds `"@A"` to address 2. -/
def simC4 : Simulator :=
  { int_registers := List.replicate 32 0
    program_counter := 1
    labels := [("@A", 2)]
    instructions := [Instructions.SKIP, Instructions.JUMP "@A",
      Instructions.SKIP, Instructions.SKIP] }

/-- C4 counterexample: `"@A"` is recorded at address 2, yet after stepping
the `JUMP "@A"` instruction the counter is 3, because `step` increments
the counter even after a taken jump: the next fetched instruction is at
the recorded address plus one, not at the recorded address. -/
theorem jump_next_fetch_not_at_target :
    hmGet simC4.labels "@A" = some 2 ∧
    simC4.instructions[simC4.program_counter]? =
      some (Instructions.JUMP "@A") ∧
    step simC4 = OpOut.ok { simC4 with program_counter := 3 } ∧
    step simC4 ≠ OpOut.ok { simC4 with program_counter := 2 } := by decide

/-- C4 amended: `JUMP @L` with `@L` absent from the label table fails with
`UnknownLabel`; with `@L` recorded at `addr` the handler sets the counter
to `addr`, and then `step`'s unconditional increment leaves it at
`addr + 1`, so the next instruction fetched by the run loop is the one at
`addr + 1`, not the one at `addr`. -/
theorem jump_target_then_increment (sim : Simulator) (L : String)
    (hI : sim.instructions[sim.program_counter]? =
      some (Instructions.JUMP L)) :
    (hmGet sim.labels L = none →
      step sim = OpOut.err Error.UnknownLabel sim) ∧
    (∀ addr, hmGet sim.labels L = some addr →
      jump_operation sim L = OpOut.ok { sim with program_counter := addr } ∧
      step sim = OpOut.ok { sim with program_counter := addr + 1 }) := by
  have hop : operate sim = jump_operation sim L := by
    unfold operate
    rw [hI]
  constructor
  · intro h
    unfold step
    rw [hop]
    unfold jump_operation
    rw [h]
  · intro addr h
    have hj : jump_operation sim L =
        OpOut.ok { sim with program_counter := addr } := by
      unfold jump_operation
      rw [h]
    refine ⟨hj, ?_⟩
    unfold step
    rw [hop, hj]

/-- C4 amended witness: on the concrete machine the jump handler sets the
counter to 2 and the step leaves it at 3. -/
theorem jump_target_then_increment_witness :
    jump_operation simC4 "@A" = OpOut.ok { simC4 with program_counter := 2 } ∧
    step simC4 = OpOut.ok { simC4 with program_counter := 3 } :=
  (jump_target_then_increment simC4 "@A" (by decide)).2 2 (by decide)

/-- The register operands carried by an instruction (in source order). -/
def regRefs : Instructions → List Nat
  | .LI a _ => [a]
  | .MOVE a b => [a, b]
  | .ADD a b c | .SUB a b c | .MUL a b c | .DIV a b c | .REM a b c => [a, b, c]
  | .PRINT a => [a]
  | .BEQ a b _ | .BNE a b _ | .BLT a b _ | .BLE a b _ | .BGT a b _
  | .BGE a b _ => [a, b]
  | _ => []

/-- C5: executing any instruction that carries a register operand
`r ≥ 32` (with the register file at its fixed size 32) yields the
`OutOfRange` error, and the returned state is the input state — no
register or other machine state was mutated. -/
theorem out_of_range_before_mutation (sim : Simulator) (i : Instructions)
    (r : Nat) (hI : sim.instructions[sim.program_counter]? = some i)
    (hmem : r ∈ regRefs i) (hr : 32 ≤ r)
    (hlen : sim.int_registers.length = 32) :
    operate sim = OpOut.err Error.OutOfRange sim := by
  cases i with
  | LI a b =>
    simp [regRefs] at hmem
    unfold operate
    rw [hI]
    show li_operation sim a b = _
    unfold li_operation
    rw [if_pos (by omega)]
  | MOVE a b =>
    simp [regRefs] at hmem
    unfold operate
    rw [hI]
    show move_operation sim a b = _
    unfold move_operation
    rw [if_pos (by omega)]
  | ADD a b c =>
    simp [regRefs] at hmem
    unfold operate
    rw [hI]
    show add_operation sim a b c = _
    unfold add_operation
    rw [if_pos (by omega)]
  | SUB a b c =>
    simp [regRefs] at hmem
    unfold operate
    rw [hI]
    show sub_operation sim a b c = _
    unfold sub_operation
    rw [if_pos (by omega)]
  | MUL a b c =>
    simp [regRefs] at hmem
    unfold operate
    rw [hI]
    show mul_operation sim a b c = _
    unfold mul_operation
    rw [if_pos (by omega)]
  | DIV a b c =>
    simp [regRefs] at hmem
    unfold operate
    rw [hI]
    show div_operation sim a b c = _
    unfold div_operation
    rw [if_pos (by omega)]
  | REM a b c =>
    simp [regRefs] at hmem
    unfold operate
    rw [hI]
    show rem_operation sim a b c = _
    unfold rem_operation
    rw [if_pos (by omega)]
  | PRINT a =>
    simp [regRefs] at hmem
    unfold operate
    rw [hI]
    show print_operation sim a = _
    unfold print_operation
    rw [if_pos (by omega)]
  | EXIT => simp [regRefs] at hmem
  | SKIP => simp [regRefs] at hmem
  | LABEL => simp [regRefs] at hmem
  | JUMP a => simp [regRefs] at hmem
  | BEQ a b c =>
    simp [regRefs] at hmem
    unfold operate
    rw [hI]
    show beq_operation sim a b c = _
    unfold beq_operation
    rw [if_pos (by omega)]
  | BNE a b c =>
    simp [regRefs] at hmem
    unfold operate
    rw [hI]
    show bne_operation sim a b c = _
    unfold bne_operation
    rw [if_pos (by omega)]
  | BLT a b c =>
    simp [regRefs] at hmem
    unfold operate
    rw [hI]
    show blt_operation sim a b c = _
    unfold blt_operation
    rw [if_pos (by omega)]
  | BLE a b c =>
    simp [regRefs] at hmem
    unfold operate
    rw [hI]
    show ble_operation sim a b c = _
    unfold ble_operation
    rw [if_pos (by omega)]
  | BGT a b c =>
    simp [regRefs] at hmem
    unfold operate
    rw [hI]
    show bgt_operation sim a b c = _
    unfold bgt_operation
    rw [if_pos (by omega)]
  | BGE a b c =>
    simp [regRefs] at hmem
    unfold operate
    rw [hI]
    show bge_operation sim a b c = _
    unfold bge_operation
    rw [if_pos (by omega)]

/-- A machine about to execute `LI $32 5`, whose destination register
index 32 is out of range. -/
def simC5 : Simulator :=
  { Simulator.new with instructions := [Instructions.LI 32 5] }

/-- C5 witness: `LI $32 5` fails with `OutOfRange` leaving the machine
unchanged. -/
theorem out_of_range_before_mutation_witness :
    operate simC5 = OpOut.err Error.OutOfRange simC5 :=
  out_of_range_before_mutation simC5 (Instructions.LI 32 5) 32 (by decide)
    (by decide) (by decide) (by decide)

/-- C7 counterexample: loading `["SKIP", "XYZ"]` fails with the parse
error of the malformed second line, but the instruction parsed from the
first line is retained — the machine's instruction sequence is
`[SKIP]`, not the empty sequence it held before the load. -/
theorem load_retains_partial_program :
    (load Simulator.new ["SKIP", "XYZ"]).1 = some Error.InvalidInstruction ∧
    (load Simulator.new ["SKIP", "XYZ"]).2.instructions =
      [Instructions.SKIP] ∧
    Simulator.new.instructions = [] := by decide

/-- C7 amended: when every line before the first malformed line processes
successfully, loading fails with that line's parse error, and the machine
retains the partial program built from the preceding lines — one
instruction per preceding line — instead of reverting to the empty
sequence. -/
theorem load_first_error_keeps_prefix (good : List String) (bad : String)
    (rest : List String) (s1 : Simulator) (e : Error)
    (hgood : process_lines good Simulator.new = (none, s1))
    (hlab : labelMatch bad.data = false)
    (hbad : parse_instruction bad = Except.error e) :
    process_lines (good ++ bad :: rest) Simulator.new = (some e, s1) ∧
    s1.instructions.length = good.length := by
  have hlen := processLinesAux_ok_length 0 good Simulator.new s1 hgood
  constructor
  · unfold process_lines at hgood ⊢
    rw [processLinesAux_append, hgood]
    show processLinesAux (0 + good.length) (bad :: rest) s1 = (some e, s1)
    simp only [processLinesAux, hlab, Bool.false_eq_true, if_false, hbad]
  · simpa [Simulator.new] using hlen

/-- C7 amended witness: the prefix theorem applied to
`["SKIP"] ++ "XYZ" :: []`. -/
theorem load_first_error_keeps_prefix_witness :
    process_lines (["SKIP"] ++ "XYZ" :: []) Simulator.new =
      (some Error.InvalidInstruction,
        { Simulator.new with instructions := [Instructions.SKIP] }) ∧
    ({ Simulator.new with
        instructions := [Instructions.SKIP] } : Simulator).instructions.length =
      (["SKIP"] : List String).length :=
  load_first_error_keeps_prefix ["SKIP"] "XYZ" []
    { Simulator.new with instructions := [Instructions.SKIP] }
    Error.InvalidInstruction (by decide) (by decide) (by decide)

/-- C8 counterexample: `" @MAIN"` is a label declaration line (optional
whitespace, `@`, uppercase letters), and the resolver inserts it at
address 0 — but the key inserted is the whole line `" @MAIN"`, whitespace
included, so a lookup of the label name `"@MAIN"` finds nothing. -/
theorem label_table_key_is_whole_line :
    labelMatch " @MAIN".data = true ∧
    (process_lines [" @MAIN"] Simulator.new).1 = none ∧
    (process_lines [" @MAIN"] Simulator.new).2.labels = [(" @MAIN", 0)] ∧
    hmGet (process_lines [" @MAIN"] Simulator.new).2.labels "@MAIN" =
      none := by decide

/-- C8 amended: for every label declaration line `l`, the resolver inserts
the pair (whole line text of `l`, index of `l` in the preprocessed
sequence); a later lookup of that exact line text (which equals `@` + name
only when the line carries no surrounding whitespace) finds that index,
provided `l` does not recur among the later lines. -/
theorem label_resolver_inserts_line_address (good : List String) (l : String)
    (rest : List String) (s1 sF : Simulator)
    (hgood : process_lines good Simulator.new = (none, s1))
    (hlab : labelMatch l.data = true)
    (hrest : l ∉ rest)
    (hall : process_lines (good ++ l :: rest) Simulator.new = (none, sF)) :
    hmGet sF.labels l = some good.length := by
  unfold process_lines at hgood hall
  rw [processLinesAux_append, hgood] at hall
  have hall2 : processLinesAux (0 + good.length) (l :: rest) s1 =
      (none, sF) := hall
  simp only [processLinesAux, hlab, if_true] at hall2
  have hp := processLinesAux_labels_preserve (0 + good.length + 1) rest
    { s1 with
      instructions := s1.instructions ++ [Instructions.LABEL]
      labels := hmInsert s1.labels l (0 + good.length) } l hrest
  rw [hall2] at hp
  simp only [hmInsert, hmGet, if_pos rfl] at hp
  rw [hp]
  simp

/-- C8 amended witness: loading the single line `"@A"` records `"@A"` at
address 0 and the lookup succeeds. -/
theorem label_resolver_inserts_line_address_witness :
    hmGet ({ Simulator.new with
      instructions := [Instructions.LABEL]
      labels := [("@A", 0)] } : Simulator).labels "@A" = some 0 :=
  label_resolver_inserts_line_address [] "@A" [] Simulator.new
    { Simulator.new with
      instructions := [Instructions.LABEL]
      labels := [("@A", 0)] }
    (by decide) (by decide) (by simp) (by decide)

/-- Whether a conditional branch instruction's comparison holds in the
given state (`false` on non-branch instructions). -/
def branchTaken (sim : Simulator) : Instructions → Bool
  | .BEQ a b _ => decide (getReg sim a = getReg sim b)
  | .BNE a b _ => decide (getReg sim a ≠ getReg sim b)
  | .BLT a b _ => decide (getReg sim a < getReg sim b)
  | .BLE a b _ => decide (getReg sim a ≤ getReg sim b)
  | .BGT a b _ => decide (getReg sim a > getReg sim b)
  | .BGE a b _ => decide (getReg sim a ≥ getReg sim b)
  | _ => false

/-- A machine about to execute `BNE $1 $2 @X` with an empty label table
and equal registers, so the branch condition is false. -/
def simC9 : Simulator :=
  { int_registers := List.replicate 32 0
    program_counter := 0
    labels := []
    instructions := [Instructions.BNE 1 2 "@X"] }

/-- C9 counterexample: `@X` is absent from the label table, the register
operands are in range and the `BNE` condition is false — yet the
instruction succeeds instead of failing with `UnknownLabel`: the label is
not looked up when the branch is not taken. -/
theorem untaken_branch_skips_label_check :
    hmGet simC9.labels "@X" = none ∧
    operate simC9 = OpOut.ok simC9 ∧
    operate simC9 ≠ OpOut.err Error.UnknownLabel simC9 := by decide

/-- C9 amended: a conditional branch with in-range register operands and a
label absent from the label table fails with `UnknownLabel` exactly when
its condition is true; when the condition is false it falls through
successfully without checking the label. -/
theorem branch_checks_label_only_when_taken (sim : Simulator)
    (i : Instructions) (a b : Nat) (L : String)
    (hI : sim.instructions[sim.program_counter]? = some i)
    (hinfo : i = .BEQ a b L ∨ i = .BNE a b L ∨ i = .BLT a b L ∨
      i = .BLE a b L ∨ i = .BGT a b L ∨ i = .BGE a b L)
    (ha : a < sim.int_registers.length) (hb : b < sim.int_registers.length)
    (hL : hmGet sim.labels L = none) :
    operate sim = if branchTaken sim i then OpOut.err Error.UnknownLabel sim
      else OpOut.ok sim := by
  rcases hinfo with rfl | rfl | rfl | rfl | rfl | rfl
  · have hop : operate sim = beq_operation sim a b L := by
      unfold operate
      rw [hI]
    rw [hop]
    unfold beq_operation branchTaken
    rw [if_neg (by omega)]
    by_cases hc : getReg sim a = getReg sim b
    · simp [hc, jump_operation, hL]
    · simp [hc]
  · have hop : operate sim = bne_operation sim a b L := by
      unfold operate
      rw [hI]
    rw [hop]
    unfold bne_operation branchTaken
    rw [if_neg (by omega)]
    by_cases hc : getReg sim a = getReg sim b
    · simp [hc]
    · simp [hc, jump_operation, hL]
  · have hop : operate sim = blt_operation sim a b L := by
      unfold operate
      rw [hI]
    rw [hop]
    unfold blt_operation branchTaken
    rw [if_neg (by omega)]
    by_cases hc : getReg sim a < getReg sim b
    · simp [hc, jump_operation, hL]
    · simp [hc]
  · have hop : operate sim = ble_operation sim a b L := by
      unfold operate
      rw [hI]
    rw [hop]
    unfold ble_operation branchTaken
    rw [if_neg (by omega)]
    by_cases hc : getReg sim a ≤ getReg sim b
    · simp [hc, jump_operation, hL]
    · simp [hc]
  · have hop : operate sim = bgt_operation sim a b L := by
      unfold operate
      rw [hI]
    rw [hop]
    unfold bgt_operation branchTaken
    rw [if_neg (by omega)]
    by_cases hc : getReg sim a > getReg sim b
    · simp [hc, jump_operation, hL]
    · simp [hc]
  · have hop : operate sim = bge_operation sim a b L := by
      unfold operate
      rw [hI]
    rw [hop]
    unfold bge_operation branchTaken
    rw [if_neg (by omega)]
    by_cases hc : getReg sim a ≥ getReg sim b
    · simp [hc, jump_operation, hL]
    · simp [hc]

/-- A machine about to execute `BEQ $1 $2 @X` with an empty label table
and equal registers, so the branch condition is true. -/
def simC9b : Simulator :=
  { simC9 with instructions := [Instructions.BEQ 1 2 "@X"] }

/-- C9 amended witness: a taken branch whose label is absent fails with
`UnknownLabel`. -/
theorem branch_checks_label_only_when_taken_witness :
    operate simC9b = OpOut.err Error.UnknownLabel simC9b := by
  have h := branch_checks_label_only_when_taken simC9b
    (Instructions.BEQ 1 2 "@X") 1 2 "@X" (by decide) (Or.inl rfl)
    (by decide) (by decide) (by decide)
  rw [h]
  decide

/-- C10: the stack is a LIFO — pushing `v` on any stack and popping
returns `some v` and restores the original stack, and popping a freshly
created stack returns `none`. -/
theorem stack_lifo {T : Type} (s : Stack T) (v : T) :
    (s.push v).pop = (some v, s) ∧
    (Stack.new : Stack T).pop = (none, (Stack.new : Stack T)) := by
  constructor
  · cases s
    rfl
  · rfl

end InterpreterRs
